/-
A verification development for the FileIndexManager module
(src/FileIndexManager.js): a registry of named file indexes over a project
directory tree, rebuilt lazily under a single dirty flag.

The JavaScript module is embedded shallowly:

* `Entry` models a filesystem entry handed out by the directory abstraction
  (a `FileEntry` with `name`/`fullPath`, or a `DirectoryEntry` whose reader
  yields an ordered child list).
* `FileInfo`, `FileIndex` mirror the constructors of the same names.
* The module state (`_indexList`, `_indexListDirty`) becomes `ModelState`;
  the object keyed by index name becomes an insertion-ordered list of
  `FileIndex` values, matching the enumeration order of `$.each`.
* The asynchronous `readEntries` traversal is modelled as a synchronous
  walk in listing order; `_showMaxFilesDialog` (the limit-exceeded
  notifier) is modelled as a counter `dialogs` of its invocations.
* In `_scanDirectoryRecurse(dirEntry, fileCount)`, both call sites in the
  source omit the `fileCount` argument, so inside the function the value is
  the JavaScript `undefined` (and `fileCount++` produces `NaN`).  The
  numeric-or-undefined value is modelled as `Option Nat`: `none` stands for
  undefined/NaN, for which every `>` comparison is false in JavaScript.
* Thrown errors (`"Duplicate index name"`, `"Invalid arguments"`,
  `"indexName not found"`) become an `Except JsError` result; a throw
  leaves the caller-held state untouched, which the functional embedding
  expresses by returning only the error.  The non-callable-predicate check
  (`typeof filterFunction !== "function"`) is modelled by passing
  `Option (Entry → Bool)`, where `none` is a non-callable value.
* `ProjectManager.getProjectRoot()` may return a root directory or null;
  it is modelled as an `Option Entry` parameter supplied to every
  operation that triggers a sync.
-/

import Mathlib

set_option linter.unusedVariables false

/-- A filesystem entry as delivered by the directory abstraction: either a
file or a directory; each exposes a base name and a full path, and a
directory exposes its children in listing order. -/
inductive Entry where
  | file (name : String) (fullPath : String)
  | dir (name : String) (fullPath : String) (children : List Entry)

/-- The `name` property of an entry. -/
def Entry.name : Entry → String
  | .file n _ => n
  | .dir n _ _ => n

/-- The `fullPath` property of an entry. -/
def Entry.fullPath : Entry → String
  | .file _ p => p
  | .dir _ p _ => p

/-- The `isFile` property of an entry. -/
def Entry.isFile : Entry → Bool
  | .file _ _ => true
  | .dir _ _ _ => false

/-- The child list produced by `createReader().readEntries` for a
directory (files have no children). -/
def childrenOf : Entry → List Entry
  | .file _ _ => []
  | .dir _ _ cs => cs

/-- class FileInfo: holds the info about a file that a FileIndex retains,
copied from the entry at construction time. -/
structure FileInfo where
  name : String
  fullPath : String
deriving DecidableEq, Repr

/-- The `FileInfo(entry)` constructor. -/
def FileInfo.ofEntry (entry : Entry) : FileInfo :=
  { name := entry.name, fullPath := entry.fullPath }

/-- class FileIndex: a named index holding the fileInfos accepted by its
filterFunction. The constructor starts `fileInfos` empty. -/
structure FileIndex where
  name : String
  fileInfos : List FileInfo
  filterFunction : Entry → Bool

/-- The errors the module throws. -/
inductive JsError where
  | duplicateIndexName
  | invalidArguments
  | indexNameNotFound
deriving DecidableEq, Repr

/-- The JavaScript `>` comparison between a possibly-undefined counter and
a number: any comparison against undefined (or NaN) is false. -/
def jsGT : Option Nat → Nat → Bool
  | none, _ => false
  | some n, m => decide (n > m)

/-- The JavaScript `++` on a possibly-undefined counter: incrementing
undefined (or NaN) yields NaN, modelled as `none`. -/
def jsInc : Option Nat → Option Nat
  | none => none
  | some n => some (n + 1)

/-- ECMAScript `String.prototype.slice(start, end)`: negative arguments
count from the end of the string, and both positions are clamped to
`[0, length]`. -/
def jsSlice (s : String) (start finish : Int) : String :=
  let len : Int := s.length
  let intStart : Int := if start < 0 then max (len + start) 0 else min start len
  let intEnd : Int := if finish < 0 then max (len + finish) 0 else min finish len
  String.mk ((s.data.drop intStart.toNat).take (intEnd - intStart).toNat)

/-- The mutable module state: `_indexList` (an object enumerated in
insertion order) and `_indexListDirty`, plus the count of
`_showMaxFilesDialog` invocations, which stands for the limit-exceeded
notifier call. -/
structure ModelState where
  indexList : List FileIndex
  indexListDirty : Bool
  dialogs : Nat

/-- The state touched while scanning: the index list and the dialog
counter (the dirty flag is not consulted during the walk). -/
structure ScanState where
  indexList : List FileIndex
  dialogs : Nat

/-- `_addIndex(indexName, filterFunction)`: throws on a duplicate name,
then on a non-callable filter; otherwise appends a fresh empty FileIndex
and sets the dirty flag. -/
def addIndex (indexName : String) (filterFunction : Option (Entry → Bool))
    (s : ModelState) : Except JsError ModelState :=
  if s.indexList.any (fun index => index.name == indexName) then
    .error .duplicateIndexName
  else
    match filterFunction with
    | none => .error .invalidArguments
    | some f =>
        .ok { s with
                indexList := s.indexList ++ [⟨indexName, [], f⟩],
                indexListDirty := true }

/-- `_addFileToIndexes(entry)`: builds one shared FileInfo and appends it
to every index whose filterFunction accepts the raw entry. -/
def addFileToIndexes (entry : Entry) (indexList : List FileIndex) : List FileIndex :=
  let fileInfo := FileInfo.ofEntry entry
  indexList.map (fun index =>
    if index.filterFunction entry then
      { index with fileInfos := index.fileInfos ++ [fileInfo] }
    else index)

/-- `_showMaxFilesDialog()`: invoking the limit-exceeded notifier, counted. -/
def showMaxFilesDialog (s : ScanState) : ScanState :=
  { s with dialogs := s.dialogs + 1 }

/-- Every list has positive default size, a fact used by the termination
argument of the mutual scan. -/
theorem one_le_sizeOf_list (l : List Entry) : 1 ≤ sizeOf l := by
  cases l <;> simp_arith

/-- The children of an entry are smaller than the entry, a fact used by
the termination argument of the mutual scan. -/
theorem sizeOf_childrenOf_lt (e : Entry) : sizeOf (childrenOf e) < 1 + sizeOf e := by
  cases e <;> simp_arith [childrenOf]

mutual
/-- `_scanDirectoryRecurse(dirEntry, fileCount)`: returns on a null entry;
shows the max-files dialog and stops when `fileCount > 10000`; otherwise
walks the child list. Both call sites in the source omit `fileCount`. -/
def scanDirectoryRecurse (dirEntry : Option Entry) (fileCount : Option Nat)
    (s : ScanState) : ScanState :=
  match dirEntry with
  | none => s
  | some e =>
      if jsGT fileCount 10000 then showMaxFilesDialog s
      else scanEntries (childrenOf e) fileCount s
termination_by sizeOf dirEntry
decreasing_by
  simp_wf
  have h := sizeOf_childrenOf_lt e
  omega

/-- The `entries.forEach` body: a file is added to the indexes and bumps
the local `fileCount`; a directory is recursed into with the `fileCount`
argument omitted (hence undefined in the callee). -/
def scanEntries (entries : List Entry) (fileCount : Option Nat)
    (s : ScanState) : ScanState :=
  match entries with
  | [] => s
  | entry :: rest =>
      match entry with
      | .file _ _ =>
          scanEntries rest (jsInc fileCount)
            { s with indexList := addFileToIndexes entry s.indexList }
      | .dir n p cs =>
          scanEntries rest fileCount
            (scanDirectoryRecurse (some (.dir n p cs)) none s)
termination_by sizeOf entries
decreasing_by
  all_goals simp_wf
  all_goals have h := one_le_sizeOf_list rest
  all_goals omega
end

/-- `_clearIndexes()`: empties the fileInfo array of every index. -/
def clearIndexes (indexList : List FileIndex) : List FileIndex :=
  indexList.map (fun index => { index with fileInfos := [] })

/-- `markDirty()`: sets the dirty flag unconditionally. -/
def markDirty (s : ModelState) : ModelState :=
  { s with indexListDirty := true }

/-- `syncFileIndex()`: when dirty, clears all indexes, scans from the
project root (`fileCount` omitted, hence undefined), and clears the dirty
flag; otherwise a no-op. -/
def syncFileIndex (projectRoot : Option Entry) (s : ModelState) : ModelState :=
  if s.indexListDirty then
    let scanned := scanDirectoryRecurse projectRoot none
      { indexList := clearIndexes s.indexList, dialogs := s.dialogs }
    { indexList := scanned.indexList, indexListDirty := false,
      dialogs := scanned.dialogs }
  else s

/-- `getFileInfoList(indexName)`: syncs, then throws if the name is not
registered, else returns the fileInfo list of that index. The state after
the call is returned alongside the result. -/
def getFileInfoList (projectRoot : Option Entry) (indexName : String)
    (s : ModelState) : ModelState × Except JsError (List FileInfo) :=
  let s1 := syncFileIndex projectRoot s
  match s1.indexList.find? (fun index => index.name == indexName) with
  | none => (s1, .error .indexNameNotFound)
  | some index => (s1, .ok index.fileInfos)

/-- `getFilteredList(indexName, filterFunction)`: syncs, fetches the list
via `getFileInfoList`, and returns a new list of the fileInfos whose name
passes the filter. -/
def getFilteredList (projectRoot : Option Entry) (indexName : String)
    (filterFunction : String → Bool) (s : ModelState) :
    ModelState × Except JsError (List FileInfo) :=
  let s1 := syncFileIndex projectRoot s
  match getFileInfoList projectRoot indexName s1 with
  | (s2, .error e) => (s2, .error e)
  | (s2, .ok fileList) =>
      (s2, .ok (fileList.filter (fun fileInfo => filterFunction fileInfo.name)))

/-- `getFilenameMatches(indexName, filename)`: the fileInfos whose name is
string-equal to `filename`. -/
def getFilenameMatches (projectRoot : Option Entry) (indexName : String)
    (filename : String) (s : ModelState) :
    ModelState × Except JsError (List FileInfo) :=
  getFilteredList projectRoot indexName (fun item => item == filename) s

/-- The filter of the pre-registered "all" index: accepts every entry. -/
def allFilter : Entry → Bool := fun _ => true

/-- The filter of the pre-registered "css" index:
`filename.slice(filename.length - 4, filename.length) === ".css"`. -/
def cssFilter : Entry → Bool := fun entry =>
  let filename := entry.name
  jsSlice filename ((filename.length : Int) - 4) (filename.length : Int) == ".css"

/-- The state before module initialization: no indexes, dirty flag true
(`_indexListDirty` starts true), no dialog shown. -/
def emptyState : ModelState :=
  { indexList := [], indexListDirty := true, dialogs := 0 }

/-- The module state after initialization registered the "all" and "css"
indexes. -/
def initialState : ModelState :=
  { indexList := [⟨"all", [], allFilter⟩, ⟨"css", [], cssFilter⟩],
    indexListDirty := true, dialogs := 0 }

/-- The `projectRootChanged` event handler: it calls `syncFileIndex()`
(and nothing else). -/
def projectRootChanged (projectRoot : Option Entry) (s : ModelState) : ModelState :=
  syncFileIndex projectRoot s

/-- Module initialization really produces `initialState`: the two
`_addIndex` calls both succeed starting from the empty registry. -/
theorem initialState_eq_addIndex_chain :
    (addIndex "all" (some allFilter) emptyState).bind
      (addIndex "css" (some cssFilter)) = .ok initialState := rfl

/-- The tree used by the case-sensitivity example: `main.js`, `theme.css`
and `reset.CSS` at the project root. -/
def exampleTree : Entry :=
  .dir "project" "/project"
    [.file "main.js" "/project/main.js",
     .file "theme.css" "/project/theme.css",
     .file "reset.CSS" "/project/reset.CSS"]

/-- The tree used by the duplicate-filename example: `style.css` inside
both subdirectory `a` and subdirectory `b`. -/
def dupTree : Entry :=
  .dir "project" "/"
    [.dir "a" "/a" [.file "style.css" "/a/style.css"],
     .dir "b" "/b" [.file "style.css" "/b/style.css"]]

/-- Unfolding: scanning a null directory entry is a no-op. -/
@[simp] theorem scanDirectoryRecurse_null (fileCount : Option Nat) (s : ScanState) :
    scanDirectoryRecurse none fileCount s = s := by
  simp [scanDirectoryRecurse]

/-- Unfolding: scanning an entry with the counter undefined (as at both
call sites of the source) never triggers the dialog and walks the child
list. -/
@[simp] theorem scanDirectoryRecurse_some_undef (e : Entry) (s : ScanState) :
    scanDirectoryRecurse (some e) none s = scanEntries (childrenOf e) none s := by
  simp [scanDirectoryRecurse, jsGT]

/-- Unfolding: the general step for a non-null entry, with the counter
check explicit. -/
theorem scanDirectoryRecurse_some (e : Entry) (fileCount : Option Nat) (s : ScanState) :
    scanDirectoryRecurse (some e) fileCount s =
      if jsGT fileCount 10000 then showMaxFilesDialog s
      else scanEntries (childrenOf e) fileCount s := by
  simp [scanDirectoryRecurse]

/-- Unfolding: an exhausted child list ends the loop. -/
@[simp] theorem scanEntries_nil (fileCount : Option Nat) (s : ScanState) :
    scanEntries [] fileCount s = s := by
  simp [scanEntries]

/-- Unfolding: a file child is added to the indexes and bumps the local
counter. -/
@[simp] theorem scanEntries_cons_file (n p : String) (rest : List Entry)
    (fileCount : Option Nat) (s : ScanState) :
    scanEntries (.file n p :: rest) fileCount s =
      scanEntries rest (jsInc fileCount)
        { s with indexList := addFileToIndexes (.file n p) s.indexList } := by
  simp [scanEntries]

/-- Unfolding: a directory child is recursed into with the counter
argument omitted. -/
@[simp] theorem scanEntries_cons_dir (n p : String) (cs rest : List Entry)
    (fileCount : Option Nat) (s : ScanState) :
    scanEntries (.dir n p cs :: rest) fileCount s =
      scanEntries rest fileCount
        (scanDirectoryRecurse (some (.dir n p cs)) none s) := by
  simp [scanEntries]

/-- Evaluation of the sync on `exampleTree` from the freshly initialized
module: all three files land in "all", only `theme.css` lands in "css". -/
theorem exampleTree_sync :
    syncFileIndex (some exampleTree) initialState =
      { indexList :=
          [⟨"all", [⟨"main.js", "/project/main.js"⟩,
                    ⟨"theme.css", "/project/theme.css"⟩,
                    ⟨"reset.CSS", "/project/reset.CSS"⟩], allFilter⟩,
           ⟨"css", [⟨"theme.css", "/project/theme.css"⟩], cssFilter⟩],
        indexListDirty := false, dialogs := 0 } := by
  have hmain : cssFilter (.file "main.js" "/project/main.js") = false := by decide
  have htheme : cssFilter (.file "theme.css" "/project/theme.css") = true := by decide
  have hreset : cssFilter (.file "reset.CSS" "/project/reset.CSS") = false := by decide
  simp [syncFileIndex, initialState, clearIndexes, exampleTree, childrenOf,
    addFileToIndexes, FileInfo.ofEntry, Entry.name, Entry.fullPath, jsInc,
    allFilter, hmain, htheme, hreset]

/-- Evaluation of the sync on `dupTree` from the freshly initialized
module: the two same-named files are discovered in traversal order. -/
theorem dupTree_sync :
    syncFileIndex (some dupTree) initialState =
      { indexList :=
          [⟨"all", [⟨"style.css", "/a/style.css"⟩,
                    ⟨"style.css", "/b/style.css"⟩], allFilter⟩,
           ⟨"css", [⟨"style.css", "/a/style.css"⟩,
                    ⟨"style.css", "/b/style.css"⟩], cssFilter⟩],
        indexListDirty := false, dialogs := 0 } := by
  have ha : cssFilter (.file "style.css" "/a/style.css") = true := by decide
  have hb : cssFilter (.file "style.css" "/b/style.css") = true := by decide
  simp [syncFileIndex, initialState, clearIndexes, dupTree, childrenOf,
    addFileToIndexes, FileInfo.ofEntry, Entry.name, Entry.fullPath, jsInc,
    allFilter, ha, hb]

/-- Evaluation of the sync from the freshly initialized module when the
root provider yields null: both indexes stay empty, dirty is cleared. -/
theorem nullRoot_sync :
    syncFileIndex none initialState =
      { indexList := [⟨"all", [], allFilter⟩, ⟨"css", [], cssFilter⟩],
        indexListDirty := false, dialogs := 0 } := by
  simp [syncFileIndex, initialState, clearIndexes]

mutual
/-- With the counter undefined (as at both call sites in the source), the
recursive scan never invokes the max-files dialog. -/
theorem scanDirectoryRecurse_dialogs (dirEntry : Option Entry) (s : ScanState) :
    (scanDirectoryRecurse dirEntry none s).dialogs = s.dialogs := by
  match dirEntry with
  | none => rw [scanDirectoryRecurse_null]
  | some e =>
      rw [scanDirectoryRecurse_some_undef]
      exact scanEntries_dialogs (childrenOf e) none s
termination_by sizeOf dirEntry
decreasing_by
  simp_wf
  have h := sizeOf_childrenOf_lt e
  omega

/-- The child loop never invokes the max-files dialog, whatever the local
counter holds, because every recursive call resets it to undefined. -/
theorem scanEntries_dialogs (entries : List Entry) (fileCount : Option Nat)
    (s : ScanState) : (scanEntries entries fileCount s).dialogs = s.dialogs := by
  match entries with
  | [] => rw [scanEntries_nil]
  | .file n p :: rest =>
      rw [scanEntries_cons_file]
      exact scanEntries_dialogs rest (jsInc fileCount) _
  | .dir n p cs :: rest =>
      rw [scanEntries_cons_dir]
      rw [scanEntries_dialogs rest fileCount _]
      exact scanDirectoryRecurse_dialogs (some (.dir n p cs)) s
termination_by sizeOf entries
decreasing_by
  all_goals simp_wf
  all_goals have h := one_le_sizeOf_list rest
  all_goals omega
end

/-- The invariant of claim C3: every record held by an index satisfies the
filter of that index when the filter is re-evaluated on a file entry
rebuilt from the record. -/
def recordsMatchFilters (indexList : List FileIndex) : Prop :=
  ∀ index ∈ indexList, ∀ fileInfo ∈ index.fileInfos,
    index.filterFunction (Entry.file fileInfo.name fileInfo.fullPath) = true

/-- Cleared indexes hold no records, so they satisfy the invariant. -/
theorem recordsMatchFilters_clearIndexes (indexList : List FileIndex) :
    recordsMatchFilters (clearIndexes indexList) := by
  intro index hmem fileInfo hfi
  simp [clearIndexes] at hmem
  obtain ⟨index0, _, rfl⟩ := hmem
  simp at hfi

/-- Adding a discovered file preserves the invariant: the new record is
only appended to indexes whose filter accepted exactly the entry the
record reconstructs. -/
theorem recordsMatchFilters_addFile (n p : String) (indexList : List FileIndex)
    (h : recordsMatchFilters indexList) :
    recordsMatchFilters (addFileToIndexes (.file n p) indexList) := by
  intro index hmem fileInfo hfi
  simp [addFileToIndexes] at hmem
  obtain ⟨index0, hmem0, rfl⟩ := hmem
  by_cases hf : index0.filterFunction (.file n p) = true
  · simp [hf] at hfi ⊢
    rcases hfi with hfi | hfi
    · exact h index0 hmem0 fileInfo hfi
    · subst hfi
      exact hf
  · simp [Bool.not_eq_true] at hf
    simp [hf] at hfi ⊢
    exact h index0 hmem0 fileInfo hfi

mutual
/-- The recursive scan preserves the record/filter invariant. -/
theorem scanDirectoryRecurse_inv (dirEntry : Option Entry) (fileCount : Option Nat)
    (s : ScanState) (h : recordsMatchFilters s.indexList) :
    recordsMatchFilters (scanDirectoryRecurse dirEntry fileCount s).indexList := by
  match dirEntry with
  | none =>
      rw [scanDirectoryRecurse_null]
      exact h
  | some e =>
      rw [scanDirectoryRecurse_some]
      by_cases hc : jsGT fileCount 10000 = true
      · simp only [hc, if_true]
        exact h
      · simp only [Bool.not_eq_true] at hc
        simp only [hc, Bool.false_eq_true, if_false]
        exact scanEntries_inv (childrenOf e) fileCount s h
termination_by sizeOf dirEntry
decreasing_by
  simp_wf
  have hlt := sizeOf_childrenOf_lt e
  omega

/-- The child loop preserves the record/filter invariant. -/
theorem scanEntries_inv (entries : List Entry) (fileCount : Option Nat)
    (s : ScanState) (h : recordsMatchFilters s.indexList) :
    recordsMatchFilters (scanEntries entries fileCount s).indexList := by
  match entries with
  | [] =>
      rw [scanEntries_nil]
      exact h
  | .file n p :: rest =>
      rw [scanEntries_cons_file]
      exact scanEntries_inv rest (jsInc fileCount) _
        (recordsMatchFilters_addFile n p s.indexList h)
  | .dir n p cs :: rest =>
      rw [scanEntries_cons_dir]
      exact scanEntries_inv rest fileCount _
        (scanDirectoryRecurse_inv (some (.dir n p cs)) none s h)
termination_by sizeOf entries
decreasing_by
  all_goals simp_wf
  all_goals have hge := one_le_sizeOf_list rest
  all_goals omega
end

/-- A sync always leaves the dirty flag false: either the rebuild just
cleared it, or it was already false and the call was a no-op. -/
theorem syncFileIndex_clears_dirty (projectRoot : Option Entry) (s : ModelState) :
    (syncFileIndex projectRoot s).indexListDirty = false := by
  rw [syncFileIndex]
  by_cases h : s.indexListDirty = true
  · simp [h]
  · simp only [Bool.not_eq_true] at h
    simp [h]

/-- A sync on a clean state is a no-op. -/
theorem syncFileIndex_not_dirty (projectRoot : Option Entry) (s : ModelState)
    (h : s.indexListDirty = false) : syncFileIndex projectRoot s = s := by
  rw [syncFileIndex]
  simp [h]

/-- Two syncs in a row are one sync: the second is a no-op. -/
theorem syncFileIndex_idem (projectRoot : Option Entry) (s : ModelState) :
    syncFileIndex projectRoot (syncFileIndex projectRoot s) =
      syncFileIndex projectRoot s :=
  syncFileIndex_not_dirty projectRoot _ (syncFileIndex_clears_dirty projectRoot s)

/-- The data of a packed string is the packed list. -/
theorem data_mk (xs : List Char) : (String.mk xs).data = xs := rfl

/-- On a string of length at least four, the slice taken by the "css"
filter is exactly the last four characters. -/
theorem jsSlice_last4_long (n : String) (h : 4 ≤ n.data.length) :
    jsSlice n ((n.length : Int) - 4) (n.length : Int) =
      String.mk (n.data.drop (n.data.length - 4)) := by
  have hlen : n.length = n.data.length := rfl
  simp only [jsSlice, hlen]
  have h1 : ¬((n.data.length : Int) - 4 < 0) := by omega
  have h2 : ¬((n.data.length : Int) < 0) := by omega
  rw [if_neg h1, if_neg h2]
  have h3 : min ((n.data.length : Int) - 4) (n.data.length : Int) =
      (n.data.length : Int) - 4 := by omega
  have h4 : min (n.data.length : Int) (n.data.length : Int) = (n.data.length : Int) := by
    omega
  rw [h3, h4]
  have h5 : (((n.data.length : Int)) - ((n.data.length : Int) - 4)).toNat = 4 := by omega
  have h6 : (((n.data.length : Int)) - 4).toNat = n.data.length - 4 := by omega
  rw [h5, h6]
  congr 1
  apply List.take_of_length_le
  simp
  omega

/-- On a string shorter than four characters, the slice taken by the
"css" filter stays shorter than four characters (so it can never equal
".css"). -/
theorem jsSlice_last4_short (n : String) (h : n.data.length < 4) :
    (jsSlice n ((n.length : Int) - 4) (n.length : Int)).data.length < 4 := by
  simp only [jsSlice, data_mk, List.length_take, List.length_drop]
  omega

/-- The slice comparison of the "css" filter succeeds exactly on strings
whose character data ends with `.css`. -/
theorem slice_eq_css_iff (n : String) :
    (jsSlice n ((n.length : Int) - 4) (n.length : Int) == ".css") = true ↔
      ∃ pre : List Char, n.data = pre ++ ['.', 'c', 's', 's'] := by
  rw [beq_iff_eq]
  by_cases h : 4 ≤ n.data.length
  · rw [jsSlice_last4_long n h]
    constructor
    · intro heq
      have hdrop : n.data.drop (n.data.length - 4) = ['.', 'c', 's', 's'] := by
        have hc := congrArg String.data heq
        simpa [data_mk] using hc
      refine ⟨n.data.take (n.data.length - 4), ?_⟩
      rw [← hdrop, List.take_append_drop]
    · rintro ⟨pre, hpre⟩
      have hdrop : n.data.drop (n.data.length - 4) = ['.', 'c', 's', 's'] := by
        rw [hpre]
        have hl : (pre ++ ['.', 'c', 's', 's']).length - 4 = pre.length := by
          simp
        rw [hl, List.drop_left]
      rw [hdrop]
  · constructor
    · intro heq
      exfalso
      have hlt := jsSlice_last4_short n (by omega)
      rw [heq] at hlt
      simp [String.length] at hlt
    · rintro ⟨pre, hpre⟩
      exfalso
      have hc : n.data.length = pre.length + 4 := by simp [hpre]
      omega

/-- The "css" filter accepts a file entry exactly when its name ends with
the four characters `.css`. -/
theorem cssFilter_iff (n p : String) :
    cssFilter (.file n p) = true ↔
      ∃ pre : List Char, n.data = pre ++ ['.', 'c', 's', 's'] := by
  have hrw : cssFilter (.file n p) =
      (jsSlice n ((n.length : Int) - 4) (n.length : Int) == ".css") := rfl
  rw [hrw]
  exact slice_eq_css_iff n

/-- Scanning a flat child list of plain files over the initial two-index
registry appends every file to "all" and the filter-accepted files to
"css", touching nothing else. -/
theorem scanEntries_flat (entries : List Entry)
    (hf : ∀ e ∈ entries, e.isFile = true) (fileCount : Option Nat)
    (xs ys : List FileInfo) (d : Nat) :
    scanEntries entries fileCount
        ⟨[⟨"all", xs, allFilter⟩, ⟨"css", ys, cssFilter⟩], d⟩ =
      ⟨[⟨"all", xs ++ entries.map FileInfo.ofEntry, allFilter⟩,
        ⟨"css", ys ++ (entries.filter cssFilter).map FileInfo.ofEntry, cssFilter⟩],
       d⟩ := by
  induction entries generalizing fileCount xs ys with
  | nil => simp
  | cons e rest ih =>
      match e with
      | .file n p =>
          rw [scanEntries_cons_file]
          have hadd : addFileToIndexes (.file n p)
              [⟨"all", xs, allFilter⟩, ⟨"css", ys, cssFilter⟩] =
              [⟨"all", xs ++ [FileInfo.ofEntry (.file n p)], allFilter⟩,
               ⟨"css", if cssFilter (.file n p) then
                   ys ++ [FileInfo.ofEntry (.file n p)] else ys, cssFilter⟩] := by
            by_cases hcss : cssFilter (.file n p) = true
            · simp [addFileToIndexes, allFilter, hcss]
            · simp only [Bool.not_eq_true] at hcss
              simp [addFileToIndexes, allFilter, hcss]
          rw [hadd]
          by_cases hcss : cssFilter (.file n p) = true
          · rw [if_pos hcss]
            rw [ih (fun e he => hf e (List.mem_cons_of_mem _ he)) (jsInc fileCount)]
            simp [hcss]
          · simp only [Bool.not_eq_true] at hcss
            rw [if_neg (by simp [hcss])]
            rw [ih (fun e he => hf e (List.mem_cons_of_mem _ he)) (jsInc fileCount)]
            simp [hcss]
      | .dir n p cs =>
          exfalso
          have hd := hf (.dir n p cs) (List.mem_cons_self _ _)
          simp [Entry.isFile] at hd

/-- Filtering a replicated list by a predicate rejecting the element
yields the empty list. -/
theorem filter_replicate_none {α : Type} (p : α → Bool) (a : α)
    (h : p a = false) (k : Nat) : (List.replicate k a).filter p = [] := by
  induction k with
  | zero => rfl
  | succ m ih => simp [List.replicate, h, ih]

/-- The synthetic tree of claim C1: a project root holding 10001 plain
files. -/
def bigTree : Entry :=
  .dir "project" "/" (List.replicate 10001 (.file "a.txt" "/a.txt"))

/-- General description of `getFilteredList` on a registered index: the
state is exactly the synced state and the result is the order-preserving
filter of the records by the predicate applied to each record name. -/
theorem getFilteredList_spec (projectRoot : Option Entry) (indexName : String)
    (filterFunction : String → Bool) (s : ModelState) (index : FileIndex)
    (h : (syncFileIndex projectRoot s).indexList.find?
        (fun i => i.name == indexName) = some index) :
    getFilteredList projectRoot indexName filterFunction s =
      (syncFileIndex projectRoot s,
       .ok (index.fileInfos.filter
          (fun fileInfo => filterFunction fileInfo.name))) := by
  simp only [getFilteredList, getFileInfoList, syncFileIndex_idem, h]

/-- C1: the claim says a running file count is kept across the walk and a
tree of 10001 files aborts the traversal with the limit notifier invoked
exactly once.  The code disagrees: both calls of `_scanDirectoryRecurse`
omit the `fileCount` argument, so the ceiling test compares against
undefined and never fires.  On the 10001-file tree the dialog is shown
zero times and all 10001 files are indexed; only the dirty-flag part of
the claim holds (it is cleared). -/
theorem c1_maxFilesDialog_never_shown :
    (syncFileIndex (some bigTree) initialState).dialogs = 0 ∧
    (syncFileIndex (some bigTree) initialState).indexListDirty = false ∧
    (syncFileIndex (some bigTree) initialState).indexList.map
        (fun index => (index.name, index.fileInfos.length)) =
      [("all", 10001), ("css", 0)] := by
  have hfiles : ∀ e ∈ List.replicate 10001 (Entry.file "a.txt" "/a.txt"),
      e.isFile = true := by
    intro e he
    have he2 := List.eq_of_mem_replicate he
    subst he2
    rfl
  have hcssa : cssFilter (.file "a.txt" "/a.txt") = false := by decide
  have hsync : syncFileIndex (some bigTree) initialState =
      { indexList :=
          [⟨"all", List.replicate 10001 ⟨"a.txt", "/a.txt"⟩, allFilter⟩,
           ⟨"css", [], cssFilter⟩],
        indexListDirty := false, dialogs := 0 } := by
    rw [syncFileIndex]
    have hdirty : initialState.indexListDirty = true := rfl
    rw [if_pos hdirty]
    have hclear : clearIndexes initialState.indexList =
        [⟨"all", [], allFilter⟩, ⟨"css", [], cssFilter⟩] := rfl
    have hch : childrenOf bigTree =
        List.replicate 10001 (Entry.file "a.txt" "/a.txt") := rfl
    have hdial : initialState.dialogs = 0 := rfl
    simp only [hclear, hdial, scanDirectoryRecurse_some_undef, hch]
    rw [scanEntries_flat _ hfiles none [] [] 0]
    rw [filter_replicate_none cssFilter _ hcssa]
    rw [List.map_replicate]
    rfl
  rw [hsync]
  refine ⟨rfl, rfl, ?_⟩
  simp only [List.map_cons, List.map_nil, List.length_replicate, List.length_nil]

/-- C2 counterexample: the claim says every root-change notification sets
the dirty flag.  In the code the handler only calls `syncFileIndex()`,
which is a no-op when the flag is already false: after a completed sync,
a root change leaves the state (dirty flag included) entirely unchanged,
so the indexes are served stale for the new root. -/
theorem c2_rootChange_counterexample :
    projectRootChanged (some dupTree)
        (syncFileIndex (some exampleTree) initialState) =
      syncFileIndex (some exampleTree) initialState ∧
    (projectRootChanged (some dupTree)
        (syncFileIndex (some exampleTree) initialState)).indexListDirty = false := by
  have hnoop : projectRootChanged (some dupTree)
      (syncFileIndex (some exampleTree) initialState) =
      syncFileIndex (some exampleTree) initialState :=
    syncFileIndex_not_dirty _ _ (syncFileIndex_clears_dirty _ _)
  refine ⟨hnoop, ?_⟩
  rw [hnoop]
  exact syncFileIndex_clears_dirty _ _

/-- C2 amended: receiving a root-change notification does not set the
dirty flag; the handler just calls sync, which rebuilds only if the flag
was already set.  The flag is set true by explicit invalidation
(`markDirty`) and is false after every sync returns. -/
theorem c2_rootChange_amended :
    ∀ (projectRoot : Option Entry) (s : ModelState),
      projectRootChanged projectRoot s = syncFileIndex projectRoot s ∧
      (markDirty s).indexListDirty = true ∧
      (syncFileIndex projectRoot s).indexListDirty = false := by
  intro projectRoot s
  exact ⟨rfl, rfl, syncFileIndex_clears_dirty projectRoot s⟩

/-- C3: after a sync that actually rebuilt (entered with the dirty flag
set and left with it cleared), every record of every index satisfies the
filter of its index when re-evaluated on a file entry rebuilt from the
record name and fullPath. -/
theorem c3_records_satisfy_filters (projectRoot : Option Entry) (s : ModelState)
    (h : s.indexListDirty = true) :
    recordsMatchFilters (syncFileIndex projectRoot s).indexList := by
  rw [syncFileIndex, if_pos h]
  exact scanDirectoryRecurse_inv projectRoot none
    ⟨clearIndexes s.indexList, s.dialogs⟩
    (recordsMatchFilters_clearIndexes s.indexList)

/-- Witness for C3 at the freshly initialized module and the three-file
example tree. -/
theorem c3_witness :
    initialState.indexListDirty = true ∧
    recordsMatchFilters
      (syncFileIndex (some exampleTree) initialState).indexList :=
  ⟨rfl, c3_records_satisfy_filters (some exampleTree) initialState rfl⟩

/-- C4: the pre-registered "css" filter accepts exactly the entries whose
name ends in the lowercase four characters `.css` (case-sensitive slice
comparison), and on the example tree the synced "css" index holds only
`theme.css` while the "all" index shows that `reset.CSS` was visited and
excluded. -/
theorem c4_cssFilter_case_sensitive :
    (∀ n p : String, cssFilter (.file n p) = true ↔
        ∃ pre : List Char, n.data = pre ++ ['.', 'c', 's', 's']) ∧
    (getFileInfoList (some exampleTree) "css" initialState).2 =
      .ok [⟨"theme.css", "/project/theme.css"⟩] ∧
    (getFileInfoList (some exampleTree) "all" initialState).2 =
      .ok [⟨"main.js", "/project/main.js"⟩,
           ⟨"theme.css", "/project/theme.css"⟩,
           ⟨"reset.CSS", "/project/reset.CSS"⟩] := by
  refine ⟨cssFilter_iff, ?_, ?_⟩
  · rw [getFileInfoList, exampleTree_sync]
    rfl
  · rw [getFileInfoList, exampleTree_sync]
    rfl

/-- Witness for C4: the filter accepted `theme.css` through the suffix
characterization. -/
theorem c4_witness :
    cssFilter (.file "theme.css" "/project/theme.css") = true :=
  (c4_cssFilter_case_sensitive.1 "theme.css" "/project/theme.css").mpr
    ⟨['t', 'h', 'e', 'm', 'e'], rfl⟩

/-- C5: sync is idempotent; a second sync without intervening
invalidation returns the state unchanged (identical record lists), and is
a no-op because the first sync left the dirty flag false. -/
theorem c5_sync_idempotent :
    ∀ (projectRoot : Option Entry) (s : ModelState),
      syncFileIndex projectRoot (syncFileIndex projectRoot s) =
        syncFileIndex projectRoot s ∧
      (syncFileIndex projectRoot s).indexListDirty = false := by
  intro projectRoot s
  exact ⟨syncFileIndex_idem projectRoot s, syncFileIndex_clears_dirty projectRoot s⟩

/-- C6: a dirty sync with a null project root produces no records (every
index ends empty) and still clears the dirty flag. -/
theorem c6_null_root (s : ModelState) (h : s.indexListDirty = true) :
    (syncFileIndex none s).indexListDirty = false ∧
    ∀ index ∈ (syncFileIndex none s).indexList, index.fileInfos = [] := by
  refine ⟨syncFileIndex_clears_dirty none s, ?_⟩
  rw [syncFileIndex, if_pos h]
  intro index hmem
  simp only [scanDirectoryRecurse_null] at hmem
  simp only [clearIndexes, List.mem_map] at hmem
  obtain ⟨index0, _, rfl⟩ := hmem
  rfl

/-- Witness for C6 at the freshly initialized module. -/
theorem c6_witness :
    initialState.indexListDirty = true ∧
    ((syncFileIndex none initialState).indexListDirty = false ∧
     ∀ index ∈ (syncFileIndex none initialState).indexList,
       index.fileInfos = []) :=
  ⟨rfl, c6_null_root initialState rfl⟩

/-- C7: registering an index fails with the duplicate error whenever the
name is taken (whatever the predicate), fails with the invalid-argument
error on a non-callable predicate, and otherwise appends a new index with
an empty record list and sets the dirty flag.  In the failure cases no
new state is produced, so the registry held by the caller is unchanged. -/
theorem c7_addIndex (indexName : String) (f : Entry → Bool) (s : ModelState) :
    (s.indexList.any (fun index => index.name == indexName) = true →
      ∀ g : Option (Entry → Bool),
        addIndex indexName g s = .error .duplicateIndexName) ∧
    (s.indexList.any (fun index => index.name == indexName) = false →
      addIndex indexName none s = .error .invalidArguments) ∧
    (s.indexList.any (fun index => index.name == indexName) = false →
      addIndex indexName (some f) s =
        .ok { indexList := s.indexList ++ [⟨indexName, [], f⟩],
              indexListDirty := true, dialogs := s.dialogs }) := by
  refine ⟨?_, ?_, ?_⟩
  · intro h g
    simp [addIndex, h]
  · intro h
    simp [addIndex, h]
  · intro h
    simp [addIndex, h]

/-- Witness for C7: on the freshly initialized module, re-registering
"all" duplicates, a non-callable filter under a fresh name is invalid,
and a callable filter under a fresh name is appended with the dirty flag
set. -/
theorem c7_witness :
    (initialState.indexList.any (fun index => index.name == "all") = true ∧
     addIndex "all" (some allFilter) initialState =
       .error .duplicateIndexName) ∧
    (initialState.indexList.any (fun index => index.name == "md") = false ∧
     addIndex "md" none initialState = .error .invalidArguments ∧
     addIndex "md" (some allFilter) initialState =
       .ok { indexList := initialState.indexList ++ [⟨"md", [], allFilter⟩],
             indexListDirty := true, dialogs := 0 }) :=
  ⟨⟨rfl, (c7_addIndex "all" allFilter initialState).1 rfl (some allFilter)⟩,
   ⟨rfl, (c7_addIndex "md" allFilter initialState).2.1 rfl,
    (c7_addIndex "md" allFilter initialState).2.2 rfl⟩⟩

/-- C8: on a registered index, `getFilenameMatches` returns exactly the
records whose name is string-equal to the requested filename, in index
(traversal discovery) order, and on the duplicate-filename tree both
`style.css` records come back in discovery order. -/
theorem c8_getFilenameMatches :
    (∀ (projectRoot : Option Entry) (s : ModelState)
        (indexName filename : String) (index : FileIndex),
      (syncFileIndex projectRoot s).indexList.find?
          (fun i => i.name == indexName) = some index →
      getFilenameMatches projectRoot indexName filename s =
        (syncFileIndex projectRoot s,
         .ok (index.fileInfos.filter
            (fun fileInfo => fileInfo.name == filename)))) ∧
    (getFilenameMatches (some dupTree) "all" "style.css" initialState).2 =
      .ok [⟨"style.css", "/a/style.css"⟩, ⟨"style.css", "/b/style.css"⟩] := by
  constructor
  · intro projectRoot s indexName filename index h
    rw [getFilenameMatches]
    exact getFilteredList_spec projectRoot indexName _ s index h
  · have h : (syncFileIndex (some dupTree) initialState).indexList.find?
        (fun i => i.name == "all") =
        some ⟨"all", [⟨"style.css", "/a/style.css"⟩,
                      ⟨"style.css", "/b/style.css"⟩], allFilter⟩ := by
      rw [dupTree_sync]
      rfl
    rw [getFilenameMatches,
      getFilteredList_spec (some dupTree) "all" _ initialState _ h]
    rfl

/-- Witness for C8: the general clause applied to the example tree and
the "css" index. -/
theorem c8_witness :
    (syncFileIndex (some exampleTree) initialState).indexList.find?
        (fun i => i.name == "css") =
      some ⟨"css", [⟨"theme.css", "/project/theme.css"⟩], cssFilter⟩ ∧
    getFilenameMatches (some exampleTree) "css" "theme.css" initialState =
      (syncFileIndex (some exampleTree) initialState,
       .ok [⟨"theme.css", "/project/theme.css"⟩]) := by
  have h : (syncFileIndex (some exampleTree) initialState).indexList.find?
      (fun i => i.name == "css") =
      some ⟨"css", [⟨"theme.css", "/project/theme.css"⟩], cssFilter⟩ := by
    rw [exampleTree_sync]
    rfl
  exact ⟨h, (c8_getFilenameMatches.1 (some exampleTree) initialState
    "css" "theme.css" _ h).trans (by rfl)⟩

/-- C9: on a registered index, `getFilteredList` returns a new list of
exactly the records whose name passes the predicate, in index order,
while the resulting registry state is exactly the synced state (the
underlying index is not mutated beyond the sync). -/
theorem c9_getFilteredList (projectRoot : Option Entry) (s : ModelState)
    (indexName : String) (filterFunction : String → Bool) (index : FileIndex)
    (h : (syncFileIndex projectRoot s).indexList.find?
        (fun i => i.name == indexName) = some index) :
    getFilteredList projectRoot indexName filterFunction s =
      (syncFileIndex projectRoot s,
       .ok (index.fileInfos.filter
          (fun fileInfo => filterFunction fileInfo.name))) :=
  getFilteredList_spec projectRoot indexName filterFunction s index h

/-- Witness for C9: filtering the "all" index of the example tree for
names ending in `.js` keeps exactly `main.js` and the state is the synced
state. -/
theorem c9_witness :
    (syncFileIndex (some exampleTree) initialState).indexList.find?
        (fun i => i.name == "all") =
      some ⟨"all", [⟨"main.js", "/project/main.js"⟩,
                    ⟨"theme.css", "/project/theme.css"⟩,
                    ⟨"reset.CSS", "/project/reset.CSS"⟩], allFilter⟩ ∧
    getFilteredList (some exampleTree) "all"
        (fun item => item == "main.js") initialState =
      (syncFileIndex (some exampleTree) initialState,
       .ok [⟨"main.js", "/project/main.js"⟩]) := by
  have h : (syncFileIndex (some exampleTree) initialState).indexList.find?
      (fun i => i.name == "all") =
      some ⟨"all", [⟨"main.js", "/project/main.js"⟩,
                    ⟨"theme.css", "/project/theme.css"⟩,
                    ⟨"reset.CSS", "/project/reset.CSS"⟩], allFilter⟩ := by
    rw [exampleTree_sync]
    rfl
  exact ⟨h, (c9_getFilteredList (some exampleTree) initialState "all"
    (fun item => item == "main.js") _ h).trans (by rfl)⟩

/-- C10: querying an unregistered index name still performs the sync
first — the returned state is the fully synced state with the dirty flag
cleared — and only then fails with the unknown-index error. -/
theorem c10_sync_before_unknown_error (projectRoot : Option Entry)
    (s : ModelState) (indexName : String)
    (h : (syncFileIndex projectRoot s).indexList.find?
        (fun index => index.name == indexName) = none) :
    getFileInfoList projectRoot indexName s =
      (syncFileIndex projectRoot s, .error .indexNameNotFound) ∧
    (syncFileIndex projectRoot s).indexListDirty = false := by
  constructor
  · simp only [getFileInfoList, h]
  · exact syncFileIndex_clears_dirty projectRoot s

/-- Witness for C10: asking for the unregistered index "missing" with a
null root still syncs (dirty flag ends false) and then errors. -/
theorem c10_witness :
    (syncFileIndex none initialState).indexList.find?
        (fun index => index.name == "missing") = none ∧
    getFileInfoList none "missing" initialState =
      (syncFileIndex none initialState, .error .indexNameNotFound) ∧
    (syncFileIndex none initialState).indexListDirty = false := by
  have h : (syncFileIndex none initialState).indexList.find?
      (fun index => index.name == "missing") = none := by
    rw [nullRoot_sync]
    rfl
  exact ⟨h, (c10_sync_before_unknown_error none initialState "missing" h).1,
    (c10_sync_before_unknown_error none initialState "missing" h).2⟩
